import Mathlib

/-!
Shallow embedding of the palcon RCON client (src/src/lib.rs, src/src/error.rs).

Bytes are modelled as `Nat` (values below 256 on real inputs); Rust `i32`
values are modelled as `Int` with explicit reduction modulo `2^32` where the
source wraps.  Fallible Rust code returns an `Outcome`; a Rust panic (the
`bytes` crate call `Buf::get_i32_le` advancing past the end of the buffer) is
modelled by the distinguished `Outcome.panic` constructor.
-/

namespace Palcon

/-- Error type from src/src/error.rs (`PalconError`).  The payload of
`IoError` abstracts the underlying `std::io::Error` as an opaque code;
the payload of `Utf8Error` is likewise abstracted. -/
inductive PalconError : Type
  | IoError : Nat → PalconError
  | Utf8Error : Nat → PalconError
  | TimeoutError : PalconError
  | ConnectionEnded : PalconError
  | FailedToReadResponse : PalconError
  | AuthenticationError : PalconError
  | AlreadyAuthenticated : PalconError
  deriving DecidableEq, Repr

/-- Result of running a piece of Rust code: `ok`, an `Err(PalconError)`, or a
panic (process abort, not a returned value). -/
inductive Outcome (α : Type) : Type
  | ok : α → Outcome α
  | err : PalconError → Outcome α
  | panic : Outcome α
  deriving DecidableEq, Repr

/-- Response struct from src/src/lib.rs.  The Rust `String` payload is
modelled by its UTF-8 byte sequence. -/
structure Response : Type where
  size : Int
  payload : List Nat
  response_type : Int
  deriving DecidableEq, Repr

/-- Source constant `PACKET_LENGTH_OFFSET` (an i32 with value 0). -/
def PACKET_LENGTH_OFFSET : Int := 0

/-- Source constant `AUTH_TYPE` (an i32 with value 3). -/
def AUTH_TYPE : Int := 3

/-- Source constant `COMMAND_TYPE` (an i32 with value 2). -/
def COMMAND_TYPE : Int := 2

/-- Interpretation of a Rust `usize as i32` cast: reduce modulo `2^32` and
reinterpret the low 32 bits as a signed value. -/
def asI32 (n : Nat) : Int :=
  if n % 2 ^ 32 < 2 ^ 31 then ((n % 2 ^ 32 : Nat) : Int)
  else ((n % 2 ^ 32 : Nat) : Int) - 2 ^ 32

/-- Little-endian 4-byte encoding of an `i32` (`BufMut::put_i32_le`). -/
def toLeBytes32 (n : Int) : List Nat :=
  let m := (n % 2 ^ 32).toNat
  [m % 256, m / 256 % 256, m / 65536 % 256, m / 16777216 % 256]

/-- Little-endian decoding of four bytes to an `i32` value. -/
def fromLeBytes32 (b0 b1 b2 b3 : Nat) : Int :=
  let m := b0 % 256 + 256 * (b1 % 256) + 65536 * (b2 % 256) + 16777216 * (b3 % 256)
  if m < 2 ^ 31 then (m : Int) else (m : Int) - 2 ^ 32

/-- Model of the `bytes` crate call `Buf::get_i32_le` on a byte slice: consume four bytes
from the front; with fewer than four bytes remaining the Rust call panics,
modelled as `none`. -/
def get_i32_le : List Nat → Option (Int × List Nat)
  | b0 :: b1 :: b2 :: b3 :: rest => some (fromLeBytes32 b0 b1 b2 b3, rest)
  | _ => none

/-- ASCII continuation-byte test used by UTF-8 validation (0x80..=0xBF). -/
def isUtf8Cont (b : Nat) : Bool := 0x80 ≤ b && b ≤ 0xBF

/-- UTF-8 validity of a byte sequence, following the validation performed by
the Rust function `str::from_utf8` (`core::str::run_utf8_validation`): ASCII bytes stand
alone; 2-byte sequences have lead 0xC2..=0xDF; 3-byte sequences have lead
0xE0..=0xEF with the E0/ED special ranges; 4-byte sequences have lead
0xF0..=0xF4 with the F0/F4 special ranges; everything else is invalid. -/
def utf8Validate : List Nat → Bool
  | [] => true
  | b :: rest =>
    if b < 0x80 then utf8Validate rest
    else if 0xC2 ≤ b && b ≤ 0xDF then
      match rest with
      | c1 :: rest2 => isUtf8Cont c1 && utf8Validate rest2
      | [] => false
    else if 0xE0 ≤ b && b ≤ 0xEF then
      match rest with
      | c1 :: c2 :: rest2 =>
        (if b = 0xE0 then 0xA0 ≤ c1 && c1 ≤ 0xBF
         else if b = 0xED then 0x80 ≤ c1 && c1 ≤ 0x9F
         else isUtf8Cont c1) && isUtf8Cont c2 && utf8Validate rest2
      | _ => false
    else if 0xF0 ≤ b && b ≤ 0xF4 then
      match rest with
      | c1 :: c2 :: c3 :: rest2 =>
        (if b = 0xF0 then 0x90 ≤ c1 && c1 ≤ 0xBF
         else if b = 0xF4 then 0x80 ≤ c1 && c1 ≤ 0x8F
         else isUtf8Cont c1) && isUtf8Cont c2 && isUtf8Cont c3 && utf8Validate rest2
      | _ => false
    else false

/-- Buffer construction of `ServerConnection::send_packet` (src/src/lib.rs):
length field (`PACKET_LENGTH_OFFSET + payload.len() as i32`), request id 0,
type tag, payload bytes, and a 2-byte null terminator (`put_i16_le(0)`). -/
def send_packet_bytes (packet_type : Int) (payload : List Nat) : List Nat :=
  toLeBytes32 (PACKET_LENGTH_OFFSET + asI32 payload.length)
    ++ toLeBytes32 0
    ++ toLeBytes32 packet_type
    ++ payload
    ++ [0, 0]

/-- Model of `ServerConnection::decode_response` (src/src/lib.rs): reject an empty
buffer with `FailedToReadResponse`; read three little-endian `i32`s (size,
discarded id, type) — each read panics when fewer than four bytes remain;
take the remainder up to the first zero byte (or all of it) as the payload,
substituting the empty string when it is not valid UTF-8. -/
def decode_response (buffer : List Nat) : Outcome Response :=
  if buffer.length = 0 then .err .FailedToReadResponse
  else
    match get_i32_le buffer with
    | none => .panic
    | some (response_size, buf1) =>
      match get_i32_le buf1 with
      | none => .panic
      | some (_response_id, buf2) =>
        match get_i32_le buf2 with
        | none => .panic
        | some (response_type, buf3) =>
          let payload_end := (buf3.findIdx? (fun b => b = 0)).getD buf3.length
          let slice := buf3.take payload_end
          let payload := if utf8Validate slice then slice else []
          .ok { size := response_size, payload := payload,
                response_type := response_type }

/-- ConnectionState enum from src/src/lib.rs. -/
inductive ConnectionState : Type
  | Connected : ConnectionState
  | Authenticated : ConnectionState
  deriving DecidableEq, Repr

/-- A read issued against the socket completes, within the 5-second timeout,
with bytes (`Ok(Ok(n))`, carrying `buffer[..n]`), with an I/O error
(`Ok(Err(e))`), or not at all (`Err(_)`, the timeout elapsed first). -/
inductive ReadEvent : Type
  | bytes : List Nat → ReadEvent
  | ioError : Nat → ReadEvent
  | timeout : ReadEvent
  deriving DecidableEq, Repr

/-- Struct `ServerConnection` from src/src/lib.rs.  The `TcpStream` field is
modelled by its observable behaviour: `written` records every byte written
so far, `readEvents` gives the reply of the environment to the k-th read issued on
the socket (every real read yields one of the three `ReadEvent`s within the
timeout), and `readCount` counts the reads issued so far.  `write_all` on an
open stream is modelled as always succeeding; no claim under verification
concerns a failing write. -/
structure ServerConnection : Type where
  state : ConnectionState
  written : List Nat
  readEvents : Nat → ReadEvent
  readCount : Nat

/-- Model of `ServerConnection::connect` (the part after a successful TCP connect):
a fresh connection in state `Connected` with nothing written or read. -/
def connect (readEvents : Nat → ReadEvent) : ServerConnection :=
  { state := .Connected, written := [], readEvents := readEvents, readCount := 0 }

/-- Model of `ServerConnection::send_packet`: encode the packet and write it to the
stream. -/
def send_packet (c : ServerConnection) (packet_type : Int) (payload : List Nat) :
    Outcome Unit × ServerConnection :=
  (.ok (), { c with written := c.written ++ send_packet_bytes packet_type payload })

/-- The `match timeout(read_timeout, read_future).await` arm of
`ServerConnection::read_response`, as a function of how the read completed. -/
def read_result : ReadEvent → Outcome Response
  | .bytes data => decode_response data
  | .ioError e => .err (.IoError e)
  | .timeout => .err .TimeoutError

/-- Model of `ServerConnection::read_response`: issue one read bounded by the
5-second timeout and decode what it produced. -/
def read_response (c : ServerConnection) : Outcome Response × ServerConnection :=
  (read_result (c.readEvents c.readCount), { c with readCount := c.readCount + 1 })

/-- Model of `ServerConnection::send_and_read`: send a packet, propagate a send
failure, then read the response. -/
def send_and_read (c : ServerConnection) (packet_type : Int) (payload : List Nat) :
    Outcome Response × ServerConnection :=
  match send_packet c packet_type payload with
  | (.ok _, c1) => read_response c1
  | (.err e, c1) => (.err e, c1)
  | (.panic, c1) => (.panic, c1)

/-- Model of `ServerConnection::authenticate`: reject when already authenticated,
otherwise send an `AUTH_TYPE` packet carrying the password, read one
response, and succeed exactly when its type tag is 2.  Note the source never
assigns `self.state`. -/
def authenticate (c : ServerConnection) (password : List Nat) :
    Outcome Unit × ServerConnection :=
  if c.state = ConnectionState.Authenticated then
    (.err .AlreadyAuthenticated, c)
  else
    match send_packet c AUTH_TYPE password with
    | (.ok _, c1) =>
      match read_response c1 with
      | (.ok r, c2) =>
        if r.response_type = 2 then (.ok (), c2)
        else (.err .AuthenticationError, c2)
      | (.err e, c2) => (.err e, c2)
      | (.panic, c2) => (.panic, c2)
    | (.err e, c1) => (.err e, c1)
    | (.panic, c1) => (.panic, c1)

/-- Model of `ServerConnection::run_command`: one send-and-read cycle with
`COMMAND_TYPE`. -/
def run_command (c : ServerConnection) (command : List Nat) :
    Outcome Response × ServerConnection :=
  send_and_read c COMMAND_TYPE command

/-- Model of `ServerConnection::ping` as written in the source: a single
`send_packet(-1, "")` — no read is performed. -/
def ping (c : ServerConnection) : Outcome Unit × ServerConnection :=
  send_packet c (-1) []

/-- An environment in which the server answers every read with an
auth-success frame (type tag 2, empty payload). -/
def authOkEnv : Nat → ReadEvent := fun _ => ReadEvent.bytes (send_packet_bytes 2 [])

/-- One public operation issued by a caller, with its argument. -/
inductive ClientOp : Type
  | auth : List Nat → ClientOp
  | cmd : List Nat → ClientOp
  | keepalive : ClientOp

/-- The connection resulting from one public operation (its returned value
is discarded). -/
def applyOp (c : ServerConnection) : ClientOp → ServerConnection
  | .auth p => (authenticate c p).2
  | .cmd s => (run_command c s).2
  | .keepalive => (ping c).2

/-! ### Helper lemmas about the codec -/

theorem toLeBytes32_length (n : Int) : (toLeBytes32 n).length = 4 := rfl

theorem send_packet_bytes_length (t : Int) (p : List Nat) :
    (send_packet_bytes t p).length = 4 + 4 + 4 + p.length + 2 := by
  simp [send_packet_bytes, toLeBytes32]
  omega

theorem asI32_of_lt (n : Nat) (h : n < 2 ^ 31) : asI32 n = (n : Int) := by
  unfold asI32
  have h32 : n % 2 ^ 32 = n := Nat.mod_eq_of_lt (by omega)
  rw [h32, if_pos h]

theorem get_i32_le_toLeBytes32 (n : Int) (rest : List Nat)
    (h1 : -(2 : Int) ^ 31 ≤ n) (h2 : n < 2 ^ 31) :
    get_i32_le (toLeBytes32 n ++ rest) = some (n, rest) := by
  simp only [toLeBytes32, List.cons_append, List.nil_append, get_i32_le,
    Option.some.injEq, Prod.mk.injEq]
  refine ⟨?_, trivial⟩
  simp only [fromLeBytes32]
  split <;> omega

theorem asI32_bounds (n : Nat) : -(2 : Int) ^ 31 ≤ asI32 n ∧ asI32 n < 2 ^ 31 := by
  unfold asI32
  have : n % 2 ^ 32 < 2 ^ 32 := Nat.mod_lt _ (by norm_num)
  constructor <;> split <;> omega

theorem findIdx?_none_of_no_zero (p : List Nat) (hp : ∀ b ∈ p, ¬b = 0) (i : Nat) :
    List.findIdx? (fun b => b = 0) p i = none := by
  induction p generalizing i with
  | nil => simp
  | cons a t ih =>
    have ha : ¬a = 0 := hp a (by simp)
    rw [List.findIdx?_cons, if_neg (by simpa using ha)]
    exact ih (fun b hb => hp b (List.mem_cons_of_mem a hb)) (i + 1)

theorem findIdx?_zero_append (p q : List Nat) (hp : ∀ b ∈ p, ¬b = 0) (i : Nat) :
    List.findIdx? (fun b => b = 0) (p ++ 0 :: q) i = some (p.length + i) := by
  induction p generalizing i with
  | nil => simp [List.findIdx?_cons]
  | cons a t ih =>
    have ha : ¬a = 0 := hp a (by simp)
    rw [List.cons_append, List.findIdx?_cons, if_neg (by simpa using ha),
      ih (fun b hb => hp b (List.mem_cons_of_mem a hb)) (i + 1)]
    simp only [List.length_cons]
    exact congrArg some (by omega)

theorem take_findIdx?_eq_takeWhile (l : List Nat) :
    l.take ((List.findIdx? (fun b => b = 0) l 0).getD l.length)
      = l.takeWhile (fun b => !(b = 0)) := by
  induction l with
  | nil => rfl
  | cons a t ih =>
    by_cases ha : a = 0
    · subst ha
      simp [List.findIdx?_cons, List.takeWhile_cons]
    · rw [List.findIdx?_cons, if_neg (by simpa using ha), List.findIdx?_succ,
        List.takeWhile_cons, if_pos (by simpa using ha)]
      cases h : List.findIdx? (fun b => b = 0) t 0 with
      | none =>
        rw [h] at ih
        simp only [Option.getD_none, List.take_length] at ih
        simp only [h, Option.map_none', Option.getD_none, List.length_cons,
          List.take_succ_cons, List.take_length]
        rw [← ih]
      | some k =>
        rw [h] at ih
        simp only [h, Option.map_some', Option.getD_some, List.take_succ_cons] at ih ⊢
        rw [ih]

theorem exists_cons_twelve (l : List Nat) (h : 12 ≤ l.length) :
    ∃ b0 b1 b2 b3 b4 b5 b6 b7 b8 b9 b10 b11 rest,
      l = b0 :: b1 :: b2 :: b3 :: b4 :: b5 :: b6 :: b7 :: b8 :: b9 :: b10 :: b11 :: rest := by
  rcases l with _ | ⟨b0, l⟩; · exact absurd h (by simp)
  rcases l with _ | ⟨b1, l⟩; · exact absurd h (by simp)
  rcases l with _ | ⟨b2, l⟩; · exact absurd h (by simp)
  rcases l with _ | ⟨b3, l⟩; · exact absurd h (by simp)
  rcases l with _ | ⟨b4, l⟩; · exact absurd h (by simp)
  rcases l with _ | ⟨b5, l⟩; · exact absurd h (by simp)
  rcases l with _ | ⟨b6, l⟩; · exact absurd h (by simp)
  rcases l with _ | ⟨b7, l⟩; · exact absurd h (by simp)
  rcases l with _ | ⟨b8, l⟩; · exact absurd h (by simp)
  rcases l with _ | ⟨b9, l⟩; · exact absurd h (by simp)
  rcases l with _ | ⟨b10, l⟩; · exact absurd h (by simp)
  rcases l with _ | ⟨b11, l⟩; · exact absurd h (by simp)
  exact ⟨b0, b1, b2, b3, b4, b5, b6, b7, b8, b9, b10, b11, l, rfl⟩

theorem decode_response_cons (b0 b1 b2 b3 b4 b5 b6 b7 b8 b9 b10 b11 : Nat)
    (rest : List Nat) :
    decode_response (b0 :: b1 :: b2 :: b3 :: b4 :: b5 :: b6 :: b7 :: b8 :: b9 ::
        b10 :: b11 :: rest) =
      Outcome.ok
        { size := fromLeBytes32 b0 b1 b2 b3,
          payload :=
            if utf8Validate
                (rest.take ((List.findIdx? (fun b => b = 0) rest 0).getD rest.length))
              then rest.take ((List.findIdx? (fun b => b = 0) rest 0).getD rest.length)
              else [],
          response_type := fromLeBytes32 b8 b9 b10 b11 } := rfl

theorem send_packet_bytes_eq (t : Int) (p : List Nat) :
    send_packet_bytes t p =
      toLeBytes32 (asI32 p.length)
        ++ (toLeBytes32 0 ++ (toLeBytes32 t ++ (p ++ [0, 0]))) := by
  simp [send_packet_bytes, PACKET_LENGTH_OFFSET, List.append_assoc]

/-! ### Claim theorems for the wire codec -/

/-- C3: the claim says every buffer shorter than the 12-byte header fails
with the "failed to read response" error thanks to an explicit length check.
The code only checks for the empty buffer: a non-empty buffer shorter than
12 bytes (here of lengths 1 and 11) panics inside `Buf::get_i32_le` instead
of returning the error, so only the zero-length case behaves as claimed. -/
theorem c3_short_buffer_panics :
    decode_response [] = Outcome.err PalconError.FailedToReadResponse ∧
    decode_response [0] = Outcome.panic ∧
    decode_response [1, 2, 3, 4, 5, 6, 7, 8, 9, 10, 11] = Outcome.panic ∧
    decode_response [0] ≠ Outcome.err PalconError.FailedToReadResponse := by
  decide

/-- C5 counterexample: at T = 0 and empty payload the encoded buffer has
14 bytes, not 4 + 4 + 0 + 2 = 10; the `4 + 4 + len + 2` figure is only the
initial `BytesMut::with_capacity` hint, not the bytes written. -/
theorem c5_counterexample :
    ¬(send_packet_bytes 0 []).length = 4 + 4 + ([] : List Nat).length + 2 := by
  decide

/-- C5 (amended): for every type tag T and payload P, Encode builds an
outgoing buffer of exactly 4 + 4 + 4 + len(P) + 2 bytes (length field,
sequence id, type tag, payload, 2-byte terminator). -/
theorem c5_encode_length (T : Int) (P : List Nat) :
    (send_packet_bytes T P).length = 4 + 4 + 4 + P.length + 2 :=
  send_packet_bytes_length T P

/-- C6: the total bytes written per packet equal 4 (length field) + 4
(sequence id) + 4 (type tag) + payload length + 2 (terminator), and the
declared length field in the first four bytes decodes (as little-endian i32)
to the payload byte length only. -/
theorem c6_wire_invariant (T : Int) (P : List Nat) (h : P.length < 2 ^ 31) :
    (send_packet_bytes T P).length = 4 + 4 + 4 + P.length + 2 ∧
    ∃ rest, get_i32_le (send_packet_bytes T P) = some ((P.length : Int), rest) := by
  refine ⟨send_packet_bytes_length T P, ?_⟩
  rw [send_packet_bytes_eq, asI32_of_lt P.length h]
  exact ⟨_, get_i32_le_toLeBytes32 _ _ (by omega) (by exact_mod_cast h)⟩

/-- Witness for C6 at T = 2 and a two-byte payload. -/
theorem c6_witness :
    ([104, 105] : List Nat).length < 2 ^ 31 ∧
    ((send_packet_bytes 2 [104, 105]).length
        = 4 + 4 + 4 + ([104, 105] : List Nat).length + 2 ∧
      ∃ rest, get_i32_le (send_packet_bytes 2 [104, 105])
        = some ((([104, 105] : List Nat).length : Int), rest)) :=
  ⟨by decide, c6_wire_invariant 2 [104, 105] (by decide)⟩

/-- C7: for every type tag T in i32 range and every UTF-8-valid payload P
containing no null byte, Decode(Encode(T, P)) succeeds and yields a Response
whose response_type equals T and whose payload equals P. -/
theorem c7_decode_encode_roundtrip (T : Int) (P : List Nat)
    (hT1 : -(2 : Int) ^ 31 ≤ T) (hT2 : T < 2 ^ 31)
    (hut : utf8Validate P = true) (hz : ∀ b ∈ P, ¬b = 0) :
    decode_response (send_packet_bytes T P) =
      Outcome.ok { size := asI32 P.length, payload := P, response_type := T } := by
  have hlen := asI32_bounds P.length
  rw [send_packet_bytes_eq]
  have hL := get_i32_le_toLeBytes32 (asI32 P.length)
    (toLeBytes32 0 ++ (toLeBytes32 T ++ (P ++ [0, 0]))) hlen.1 hlen.2
  have h0 := get_i32_le_toLeBytes32 0 (toLeBytes32 T ++ (P ++ [0, 0]))
    (by norm_num) (by norm_num)
  have hT := get_i32_le_toLeBytes32 T (P ++ [0, 0]) hT1 hT2
  have hfind : List.findIdx? (fun b => b = 0) (P ++ [0, 0]) 0 = some P.length := by
    simpa using findIdx?_zero_append P [0] hz 0
  rw [decode_response]
  rw [if_neg (by simp [toLeBytes32])]
  simp only [hL, h0, hT, hfind, Option.getD_some, List.take_left, hut, if_true]

/-- Witness for C7 at T = 3 and a two-byte payload. -/
theorem c7_witness :
    (-(2 : Int) ^ 31 ≤ 3 ∧ (3 : Int) < 2 ^ 31 ∧
      utf8Validate [104, 105] = true ∧ (∀ b ∈ ([104, 105] : List Nat), ¬b = 0)) ∧
    decode_response (send_packet_bytes 3 [104, 105]) =
      Outcome.ok { size := asI32 ([104, 105] : List Nat).length,
                   payload := [104, 105], response_type := 3 } :=
  ⟨⟨by decide, by decide, by decide, by decide⟩,
    c7_decode_encode_roundtrip 3 [104, 105] (by decide) (by decide)
      (by decide) (by decide)⟩

/-- C8: for every buffer of at least 12 bytes, Decode succeeds and takes as
payload the bytes after the 12-byte header up to (but not including) the
first zero byte — all remaining bytes when no zero byte is present —
substituting the empty payload when that slice is not valid UTF-8. -/
theorem c8_decode_payload_extraction (buffer : List Nat) (h : 12 ≤ buffer.length) :
    ∃ r, decode_response buffer = Outcome.ok r ∧
      r.payload =
        (if utf8Validate ((buffer.drop 12).takeWhile (fun b => !(b = 0))) = true
          then (buffer.drop 12).takeWhile (fun b => !(b = 0)) else []) := by
  obtain ⟨b0, b1, b2, b3, b4, b5, b6, b7, b8, b9, b10, b11, rest, rfl⟩ :=
    exists_cons_twelve buffer h
  rw [decode_response_cons]
  refine ⟨_, rfl, ?_⟩
  show (if utf8Validate
        (rest.take ((List.findIdx? (fun b => b = 0) rest 0).getD rest.length))
      then rest.take ((List.findIdx? (fun b => b = 0) rest 0).getD rest.length)
      else []) = _
  rw [take_findIdx?_eq_takeWhile rest]
  rfl

/-- Witness for C8 on a 14-byte buffer whose tail is not valid UTF-8. -/
theorem c8_witness :
    12 ≤ ([1, 0, 0, 0, 0, 0, 0, 0, 5, 0, 0, 0, 255, 65] : List Nat).length ∧
    ∃ r, decode_response [1, 0, 0, 0, 0, 0, 0, 0, 5, 0, 0, 0, 255, 65]
        = Outcome.ok r ∧
      r.payload =
        (if utf8Validate
            ((([1, 0, 0, 0, 0, 0, 0, 0, 5, 0, 0, 0, 255, 65] : List Nat).drop 12).takeWhile
              (fun b => !(b = 0))) = true
          then (([1, 0, 0, 0, 0, 0, 0, 0, 5, 0, 0, 0, 255, 65] : List Nat).drop 12).takeWhile
            (fun b => !(b = 0))
          else []) :=
  ⟨by decide, c8_decode_payload_extraction
    [1, 0, 0, 0, 0, 0, 0, 0, 5, 0, 0, 0, 255, 65] (by decide)⟩

/-! ### Connection-level lemmas and claim theorems -/

theorem authenticate_state_eq (c : ServerConnection) (p : List Nat) :
    (authenticate c p).2.state = c.state := by
  rw [authenticate]
  split
  · rfl
  · simp only [send_packet, read_response]
    cases read_result (c.readEvents c.readCount) with
    | ok r => dsimp only; split <;> rfl
    | err e => rfl
    | panic => rfl

theorem run_command_state_eq (c : ServerConnection) (p : List Nat) :
    (run_command c p).2.state = c.state := by
  rw [run_command, send_and_read]
  simp only [send_packet, read_response]

theorem ping_state_eq (c : ServerConnection) :
    (ping c).2.state = c.state := rfl

/-- C4: the state field of the connection is never written after construction —
after any sequence of public operations on a fresh connection, in any
environment, the state still equals its initial `Connected` value, so the
`Authenticated` variant is never reached. -/
theorem c4_state_never_written (ops : List ClientOp) (env : Nat → ReadEvent) :
    (ops.foldl applyOp (connect env)).state = ConnectionState.Connected := by
  suffices h : ∀ c, (ops.foldl applyOp c).state = c.state from h (connect env)
  induction ops with
  | nil => intro c; rfl
  | cons op t ih =>
    intro c
    rw [List.foldl_cons, ih]
    cases op with
    | auth p => exact authenticate_state_eq c p
    | cmd s => exact run_command_state_eq c s
    | keepalive => exact ping_state_eq c

/-- C1: the claim says a successful Authenticate transitions the state to
Authenticated and makes every later Authenticate fail immediately with the
"already authenticated" error and zero bytes written.  The code never
assigns the state field: against a server that always replies with the
auth-success frame, the first call succeeds yet leaves the state
`Connected`, and a second call, instead of failing without traffic, sends a
second 16-byte auth packet (written log grows from 16 to 32 bytes) and
succeeds again. -/
theorem c1_authenticate_never_transitions :
    (authenticate (connect authOkEnv) [112, 119]).1 = Outcome.ok () ∧
    (authenticate (connect authOkEnv) [112, 119]).2.state
      = ConnectionState.Connected ∧
    (authenticate (connect authOkEnv) [112, 119]).2.written.length = 16 ∧
    (authenticate ((authenticate (connect authOkEnv) [112, 119]).2) [112, 119]).1
      = Outcome.ok () ∧
    (authenticate ((authenticate (connect authOkEnv) [112, 119]).2)
        [112, 119]).2.written.length = 32 := by
  decide

/-- C2: the claim says Ping performs the same send-and-read cycle as
RunCommand, failing on timeout.  In the code, `ping` is a bare
`send_packet(-1, "")`: in every environment — including one where every
read would time out — it returns success, issues no read at all, and writes
only the keepalive packet. -/
theorem c2_ping_sends_without_read (env : Nat → ReadEvent) :
    (ping (connect env)).1 = Outcome.ok () ∧
    (ping (connect env)).2.readCount = 0 ∧
    (ping (connect env)).2.written = send_packet_bytes (-1) [] :=
  ⟨rfl, rfl, rfl⟩

/-- C9: an Authenticate call that reaches the read step (state is
`Connected` and the bounded read decodes to a response `r`) succeeds if and
only if the type tag of `r` equals 2; any other tag yields the
"authentication failed" error. -/
theorem c9_authenticate_success_iff_tag2 (c : ServerConnection) (p : List Nat)
    (r : Response) (hst : c.state = ConnectionState.Connected)
    (hr : read_result (c.readEvents c.readCount) = Outcome.ok r) :
    ((authenticate c p).1 = Outcome.ok () ↔ r.response_type = 2) ∧
    (¬r.response_type = 2 →
      (authenticate c p).1 = Outcome.err PalconError.AuthenticationError) := by
  rw [authenticate]
  rw [if_neg (by simp [hst])]
  simp only [send_packet, read_response]
  rw [hr]
  dsimp only
  by_cases h2 : r.response_type = 2
  · rw [if_pos h2]
    exact ⟨⟨fun _ => h2, fun _ => rfl⟩, fun hne => absurd h2 hne⟩
  · rw [if_neg h2]
    exact ⟨⟨fun h => absurd h (by simp), fun h => absurd h h2⟩, fun _ => rfl⟩

/-- Witness for C9 on a fresh connection against the auth-success server. -/
theorem c9_witness :
    ((connect authOkEnv).state = ConnectionState.Connected ∧
      read_result ((connect authOkEnv).readEvents (connect authOkEnv).readCount)
        = Outcome.ok { size := 0, payload := [], response_type := 2 }) ∧
    (((authenticate (connect authOkEnv) [112, 119]).1 = Outcome.ok ()
        ↔ ({ size := 0, payload := [], response_type := 2 } : Response).response_type
            = 2) ∧
      (¬({ size := 0, payload := [], response_type := 2 } : Response).response_type
          = 2 →
        (authenticate (connect authOkEnv) [112, 119]).1
          = Outcome.err PalconError.AuthenticationError)) :=
  ⟨⟨rfl, by decide⟩,
    c9_authenticate_success_iff_tag2 (connect authOkEnv) [112, 119]
      { size := 0, payload := [], response_type := 2 } rfl (by decide)⟩

/-- C10: the three enumerated read-step outcomes do hold — a completed
zero-byte read yields the failed-to-read error, an elapsed timeout yields
the timeout error, and a read error propagates wrapped in `IoError` — but
they are not the only failure outcomes: a completed read of 1 to 11 bytes
(here 3 bytes) panics inside decode instead of returning any error. -/
theorem c10_read_step_outcomes (e : Nat) :
    read_result (ReadEvent.bytes []) = Outcome.err PalconError.FailedToReadResponse ∧
    read_result ReadEvent.timeout = Outcome.err PalconError.TimeoutError ∧
    read_result (ReadEvent.ioError e) = Outcome.err (PalconError.IoError e) ∧
    read_result (ReadEvent.bytes [1, 2, 3]) = Outcome.panic :=
  ⟨rfl, rfl, rfl, rfl⟩

end Palcon
